import Mathlib

set_option maxHeartbeats 1000000

/-!
Verification of the coqtop session driver (src/coq_jupyter/coqtop.py).

The driver talks to an external coqtop process through an XML protocol.
We embed the driver shallowly:

* Python strings are modelled as `List Char` (`Str`).
* The external process is modelled as an abstract stateful environment
  (`ProcModel`): for every command sent it yields the stream of protocol
  replies (out-of-band `feedback`/`message` envelopes followed, possibly,
  by a terminating `value` envelope).  A stream with no `value` envelope
  models a process that never answers (the driver would block forever).
* A `value` reply is modelled by the record of exactly the observations the
  driver extracts from it: the `good`/`fail` outcome, the `richpp` error
  payload of a failure (absent when the element is missing), the new
  StateId of an accepted Add, the open-proof name of a Status reply and
  the goal data of a Goal reply.
* Python exceptions are modelled by the `raised` constructors; the
  `blocked` constructors model waiting forever on the process.
* `LoopState` additionally carries ghost instrumentation (`committed`,
  `addsIssued`, `lastAddTip`) that records the trace of the evaluation
  loop; the instrumentation never influences control flow.
-/

namespace Coqtop

/-- Python strings, modelled as lists of characters. -/
abbrev Str := List Char

/-- StateIds are opaque strings handed out by the process (`state_id val`). -/
abbrev StateId := Str

/-- One queued statement of the cell being evaluated. -/
abbrev Sentence := Str

/-- Causes of the Python exceptions the driver can raise.  All of them are
re-raised by `eval` wrapped into `CoqtopError`. -/
inductive Cause
  | unexpectedReply   -- CoqtopError from `_execute_command` (fail reply, allow_fail False)
  | attrError         -- AttributeError: operating on a missing XML element (None)
  | unboundLocal      -- UnboundLocalError: `status_reply` read before any loop iteration
deriving DecidableEq

/-- One goal of a Goal reply: formatted hypothesis texts and the formatted
conclusion (`_format_richpp` applied to the corresponding `richpp` nodes). -/
structure Goal where
  hyps : List Str
  concl : Str
deriving DecidableEq

/-- The data of a `message` element: its `message_level` val and the
formatted `richpp` content. -/
structure Msg where
  level : Str
  content : Str
deriving DecidableEq

/-- A non-`value` (out-of-band) reply.  `message = some m` models a reply
for which `_is_message` holds (a `message` element is present). -/
structure OOBReply where
  message : Option Msg
deriving DecidableEq

/-- A terminating `value` reply, recorded through the accessors the driver
uses.  `good` models `val == "good"` (a non-good reply is a `fail` one);
`richpp` is the error payload found under a fail reply (`none` when the
element is absent); `nexttip` is the StateId found under a good Add reply;
`provingName` is the text of `status/option/string`; `goals` is the goal
data under `option/goals`. -/
structure ValueReply where
  good : Bool
  richpp : Option Str
  nexttip : Option StateId
  provingName : Option Str
  goals : Option (List Goal)
deriving DecidableEq

/-- A protocol envelope as classified by `_execute_command`. -/
inductive TaggedReply
  | value (r : ValueReply)
  | oob (r : OOBReply)
deriving DecidableEq

/-- The commands the driver sends. -/
inductive Command
  | add (sentence : Sentence) (tip : StateId)
  | status
  | goal
  | editAt (sid : StateId)
deriving DecidableEq

/-- The external coqtop process: from a process state and a command, the new
process state and the stream of replies the driver will read back. -/
structure ProcModel (σ : Type) where
  step : σ → Command → σ × List TaggedReply

/-- Lines 169-187, `_execute_command`: read replies until a `value` arrives;
other replies are accumulated out of band, in order.  A fail `value` with
`allow_fail` False raises; otherwise the `value` reply terminates the loop.
`none` models a stream that never delivers a `value` reply (the driver
blocks). -/
def executeCommand (allowFail : Bool) : List TaggedReply → Option (Except Cause (ValueReply × List OOBReply))
  | [] => none
  | .value r :: _ =>
    if !r.good && !allowFail then some (.error .unexpectedReply)
    else some (.ok (r, []))
  | .oob r :: rest =>
    (executeCommand allowFail rest).map (fun res => res.map (fun v => (v.1, r :: v.2)))

/-- Send one command to the process and run `_execute_command` on the reply
stream; also returns the advanced process state. -/
def execCmd {σ : Type} (p : ProcModel σ) (s : σ) (c : Command) (allowFail : Bool) :
    σ × Option (Except Cause (ValueReply × List OOBReply)) :=
  ((p.step s c).1, executeCommand allowFail (p.step s c).2)

/-- The whitespace characters of `strip(" \t\n\r")`. -/
def isWs (c : Char) : Bool :=
  c == ' ' || c == '\t' || c == '\n' || c == '\r'

/-- Line 92, `code.split(".")`: split on every occurrence of `'.'`,
keeping empty pieces; the result is never empty. -/
def splitDot : Str → List Str
  | [] => [[]]
  | c :: rest =>
    if c = '.' then [] :: splitDot rest
    else
      match splitDot rest with
      | [] => [[c]]
      | p :: ps => (c :: p) :: ps

/-- Lines 92-96: the initial statement queue: re-append `'.'` to every piece
but the last; keep the last piece (the leftover) only if it is not all
whitespace. -/
def buildQueue (code : Str) : List Sentence :=
  let parts := splitDot code
  let leftover := parts.getLast?.getD []
  let terminated := parts.dropLast.map (fun s => s ++ ['.'])
  if leftover.all isWs then terminated else terminated ++ [leftover]

/-- Lines 210-214 of `_get_error_content`: prepend `"Error: "` unless the
content already starts with it. -/
def withErrPfx (e : Str) : Str :=
  if "Error: ".toList.isPrefixOf e then e else "Error: ".toList ++ e

/-- Lines 204-205 with 207-214: the error content of a reply, present
exactly when `_has_error` holds (a fail reply carrying a `richpp`). -/
def errorContent? (r : ValueReply) : Option Str :=
  if r.good then none else r.richpp.map withErrPfx

/-- Python `pat in s`: `pat` occurs as a contiguous substring of `s`. -/
def hasSubstr (pat : Str) : Str → Bool
  | [] => pat.isEmpty
  | c :: rest => pat.isPrefixOf (c :: rest) || hasSubstr pat rest

/-- Lines 276-281: the two hardcoded end-of-input anomaly signatures,
checked on an error content. -/
def isEndOfInputContent (ec : Str) : Bool :=
  (hasSubstr "Anomaly".toList ec && hasSubstr "Stm.End_of_input".toList ec)
  || (hasSubstr "Anomaly".toList ec && hasSubstr "Invalid_argument(\"vernac_parse\")".toList ec)

/-- Python `str.capitalize`: first character uppercased, the rest lowered. -/
def pyCapitalize : Str → Str
  | [] => []
  | c :: cs => c.toUpper :: cs.map Char.toLower

/-- Lines 222-231, `_get_message_content`: prefix with `"<Level>: "` unless
the level is `notice` or the prefix is already present. -/
def getMessageContent (m : Msg) : Str :=
  let pfx := pyCapitalize m.level ++ ": ".toList
  if m.level == "notice".toList || pfx.isPrefixOf m.content then m.content
  else pfx ++ m.content

/-- Lines 113-117: the message contents of the out-of-band replies that
carry a message, in order. -/
def msgContents (oobs : List OOBReply) : List Str :=
  oobs.filterMap (fun r => r.message.map getMessageContent)

/-- The mutable state of `eval`s while loop, plus ghost trace fields. -/
structure LoopState (σ : Type) where
  proc : σ
  tip : StateId
  outputs : List Str
  lastStatus : Option ValueReply  -- the local `status_reply`; `none` models "not yet assigned"
  committed : List Sentence       -- ghost: the sentences accepted so far, in order
  addsIssued : Nat                -- ghost: how many Add commands were sent
  lastAddTip : Option StateId     -- ghost: the StateId carried by the last accepted Add reply
deriving DecidableEq

/-- Outcome of the whole while loop. -/
inductive LoopRes (σ : Type)
  | blocked
  | raised (st : LoopState σ) (c : Cause)
  | done (st : LoopState σ) (codeEvaluated : Bool)
deriving DecidableEq

/-- Lines 101-145: the while loop of `eval`, popping the front statement.
Order of operations, as in the source: execute Add (its out-of-band replies
are discarded, line 104), execute Status, classify; on failure first roll
back to the current tip (line 123), then either merge with the next
statement and retry (lines 125-130), or stop with success on an
end-of-input anomaly of the Add reply (lines 132-135), or stop with
failure appending the collected errors (lines 137-142); on success advance
the tip to the Add reply StateId and append the Status out-of-band
messages (lines 144-145).  Terminates because every continuing iteration
shortens the queue. -/
def evalLoop {σ : Type} (p : ProcModel σ) : List Sentence → LoopState σ → LoopRes σ
  | [], st => .done st true
  | sentence :: rest, st =>
    match execCmd p st.proc (.add sentence st.tip) true with
    | (_, none) => .blocked
    | (s1, some (.error c)) =>
      .raised { st with proc := s1, addsIssued := st.addsIssued + 1 } c
    | (s1, some (.ok (addReply, _))) =>
      match execCmd p s1 .status true with
      | (_, none) => .blocked
      | (s2, some (.error c)) =>
        .raised { st with proc := s2, addsIssued := st.addsIssued + 1 } c
      | (s2, some (.ok (statusReply, oobStatusReplies))) =>
        let st2 : LoopState σ :=
          { st with proc := s2, lastStatus := some statusReply, addsIssued := st.addsIssued + 1 }
        let errors := [addReply, statusReply].filterMap errorContent?
        let msgs := msgContents oobStatusReplies
        if addReply.good && statusReply.good then
          match addReply.nexttip with
          | none => .raised st2 .attrError
          | some t =>
            evalLoop p rest
              { st2 with tip := t, outputs := st2.outputs ++ msgs,
                         committed := st2.committed ++ [sentence], lastAddTip := some t }
        else
          match execCmd p st2.proc (.editAt st2.tip) false with
          | (_, none) => .blocked
          | (s3, some (.error c)) => .raised { st2 with proc := s3 } c
          | (s3, some (.ok _)) =>
            let st3 : LoopState σ := { st2 with proc := s3 }
            match rest with
            | r1 :: rs => evalLoop p ((sentence ++ r1) :: rs) st3
            | [] =>
              if addReply.good then
                .done { st3 with outputs := st3.outputs ++ errors } false
              else
                match addReply.richpp with
                | none => .raised st3 .attrError
                | some e =>
                  if isEndOfInputContent (withErrPfx e) then
                    .done st3 true
                  else
                    .done { st3 with outputs := st3.outputs ++ errors } false
termination_by q _ => q.length
decreasing_by
  all_goals simp only [List.length_cons]
  · omega
  · omega

/-- Line 150: the open-proof line. -/
def provingLine (nm : Str) : Str := "Proving: ".toList ++ nm

/-- Line 254: the per-goal marker `"<index>/<total> -----------"[0:15]`. -/
def markerStr (i n : Nat) : Str :=
  ((Nat.repr i).toList ++ ['/'] ++ (Nat.repr n).toList ++ " -----------".toList).take 15

/-- Lines 239-260, `_get_goals_content` on the extracted goal list. -/
def getGoalsContent (gs : List Goal) : Str :=
  match gs with
  | [] => "No more subgoals".toList
  | g0 :: _ =>
    let headerContent : Str :=
      if gs.length = 1 then "1 subgoal".toList
      else (Nat.repr gs.length).toList ++ " subgoals".toList
    let hypothesesContent : Str := List.intercalate ['\n'] g0.hyps
    let goalsContent : Str :=
      List.intercalate ['\n']
        (gs.enum.map (fun d => markerStr (d.1 + 1) gs.length ++ ['\n'] ++ d.2.concl))
    List.intercalate "\n\n".toList
      (([headerContent, hypothesesContent, goalsContent]).filter (fun c => !c.isEmpty))

/-- The final result of `eval`: either it never returns (`blocked`), or it
raises a `CoqtopError` (whose cause we record), or it returns
`(success, st.outputs)` with the session tip left at `st.tip`. -/
inductive EvalRes (σ : Type)
  | blocked
  | raised (st : LoopState σ) (c : Cause)
  | returned (st : LoopState σ) (success : Bool)
deriving DecidableEq

/-- Lines 87-163, `eval`.  Note that when the loop body never ran,
reading `status_reply` on line 149 raises an UnboundLocalError, which the
wrapper turns into a `CoqtopError`. -/
def eval {σ : Type} (p : ProcModel σ) (proc : σ) (tip : StateId) (code : Str) : EvalRes σ :=
  let tipBefore := tip
  let queue := buildQueue code
  let st0 : LoopState σ := ⟨proc, tip, [], none, [], 0, none⟩
  match evalLoop p queue st0 with
  | .blocked => .blocked
  | .raised st c => .raised st c
  | .done st ce =>
    if ce then
      match st.lastStatus with
      | none => .raised st .unboundLocal
      | some statusReply =>
        let out1 := match statusReply.provingName with
          | some nm => st.outputs ++ [provingLine nm]
          | none => st.outputs
        match execCmd p st.proc .goal false with
        | (_, none) => .blocked
        | (s1, some (.error c)) => .raised { st with proc := s1, outputs := out1 } c
        | (s1, some (.ok (goalReply, _))) =>
          match goalReply.goals with
          | some gs =>
            .returned { st with proc := s1,
                                outputs := out1 ++ [getGoalsContent gs] } true
          | none => .returned { st with proc := s1, outputs := out1 } true
    else
      match execCmd p st.proc (.editAt tipBefore) false with
      | (_, none) => .blocked
      | (s1, some (.error c)) => .raised { st with proc := s1 } c
      | (s1, some (.ok _)) => .returned { st with proc := s1, tip := tipBefore } false

/-! ### Concrete process environments used to exercise the driver -/

/-- A plain good `value` reply carrying no payload of interest. -/
def vrPlainGood : ValueReply := ⟨true, none, none, none, none⟩

/-- A good Add `value` reply carrying the new StateId `t`. -/
def vrGoodAdd (t : StateId) : ValueReply := ⟨true, none, some t, none, none⟩

/-- A fail `value` reply with error payload `e`. -/
def vrFail (e : Str) : ValueReply := ⟨false, some e, none, none, none⟩

/-- An end-of-input anomaly text as produced by coqtop. -/
def anomalyText : Str := "Anomaly: Uncaught exception Stm.End_of_input.".toList

/-- A process that accepts everything; every Add returns StateId "2". -/
def envAllGood : ProcModel Unit :=
  ⟨fun _ c => ((), match c with
    | .add _ _ => [.value (vrGoodAdd "2".toList)]
    | _ => [.value vrPlainGood])⟩

/-- A process that rejects every Add with a plain error. -/
def envFailPlain : ProcModel Unit :=
  ⟨fun _ c => ((), match c with
    | .add _ _ => [.value (vrFail "oops".toList)]
    | _ => [.value vrPlainGood])⟩

/-- A process that rejects exactly the false split "Require Import A." and
accepts everything else. -/
def envMerge : ProcModel Unit :=
  ⟨fun _ c => ((), match c with
    | .add s _ =>
      if s == "Require Import A.".toList then [.value (vrFail "Syntax error.".toList)]
      else [.value (vrGoodAdd "2".toList)]
    | _ => [.value vrPlainGood])⟩

/-- A process whose Status command fails with an end-of-input anomaly while
the Add itself is accepted. -/
def envStatusAnomaly : ProcModel Unit :=
  ⟨fun _ c => ((), match c with
    | .add _ _ => [.value (vrGoodAdd "2".toList)]
    | .status => [.value (vrFail anomalyText)]
    | _ => [.value vrPlainGood])⟩

/-- A process whose Add command fails with an end-of-input anomaly. -/
def envAddAnomaly : ProcModel Unit :=
  ⟨fun _ c => ((), match c with
    | .add _ _ => [.value (vrFail anomalyText)]
    | _ => [.value vrPlainGood])⟩

/-- A process that emits a notice message out of band while executing Add,
and accepts everything. -/
def envAddOob : ProcModel Unit :=
  ⟨fun _ c => ((), match c with
    | .add _ _ => [.oob ⟨some ⟨"notice".toList, "hello".toList⟩⟩, .value (vrGoodAdd "2".toList)]
    | _ => [.value vrPlainGood])⟩

/-- A process that emits a notice message out of band while executing
Status, and accepts everything. -/
def envStatusOob : ProcModel Unit :=
  ⟨fun _ c => ((), match c with
    | .add _ _ => [.value (vrGoodAdd "2".toList)]
    | .status => [.oob ⟨some ⟨"notice".toList, "hello".toList⟩⟩, .value vrPlainGood]
    | _ => [.value vrPlainGood])⟩

/-! ### The Add command envelope: serialization and parsing (lines 286-290, 189-190)

`_build_add_command` parses the fixed `ADD_COMMAND_TEMPLATE`, sets the
statement as the text of the `string` element and the tip as the `val`
attribute of the `state_id` element, and reserializes with
`ET.tostring(..., encoding="utf8")`.  We model the serializer at the
character level: element text escapes `&`, `<`, `>`; attribute values
additionally escape `"` and the characters tab, newline and carriage
return; an element whose text is empty is written self-closed
(`<string />`).  `_parse` first replaces every `"&nbsp;"` with a space and
then parses; we model the parse of the Add document by an extractor that
strips the fixed markup and unescapes the two payload fields. -/

/-- XML escaping of one character of element text. -/
def escCdataChar (c : Char) : Str :=
  if c = '&' then "&amp;".toList
  else if c = '<' then "&lt;".toList
  else if c = '>' then "&gt;".toList
  else [c]

/-- XML escaping of element text. -/
def escapeCdata (s : Str) : Str := (s.map escCdataChar).flatten

/-- XML escaping of one character of an attribute value. -/
def escAttrChar (c : Char) : Str :=
  if c = '&' then "&amp;".toList
  else if c = '<' then "&lt;".toList
  else if c = '>' then "&gt;".toList
  else if c = '"' then "&quot;".toList
  else if c = '\r' then "&#13;".toList
  else if c = '\n' then "&#10;".toList
  else if c = '\t' then "&#09;".toList
  else [c]

/-- XML escaping of an attribute value. -/
def escapeAttrib (s : Str) : Str := (s.map escAttrChar).flatten

/-- The serialized document up to the `string` element. -/
def addDocHead : Str :=
  "<?xml version='1.0' encoding='utf8'?>\n<call val=\"Add\">\n  <pair>\n    <pair> ".toList

/-- The serialized document between the `string` element and the
`state_id` val attribute. -/
def addDocMid : Str := " <int>0</int> </pair>\n    <pair> <state_id val=\"".toList

/-- The serialized document after the `state_id` val attribute. -/
def addDocTail : Str := "\" /> <bool val=\"false\" /> </pair>\n  </pair>\n</call>".toList

/-- The serialized `string` element: self-closed when the text is empty. -/
def stringElem (s : Str) : Str :=
  if s.isEmpty then "<string />".toList
  else "<string>".toList ++ escapeCdata s ++ "</string>".toList

/-- Lines 286-290, `_build_add_command`, composed with the serializer. -/
def buildAddCommand (sentence : Sentence) (tip : StateId) : Str :=
  addDocHead ++ stringElem sentence ++ addDocMid ++ escapeAttrib tip ++ addDocTail

/-- Line 190: `reply.replace("&nbsp;", " ")`, the non-breaking-space
normalization performed by `_parse` before parsing. -/
def replaceNbsp : Str → Str
  | '&' :: 'n' :: 'b' :: 's' :: 'p' :: ';' :: rest => ' ' :: replaceNbsp rest
  | c :: rest => c :: replaceNbsp rest
  | [] => []

/-- Strip an exact literal from the front of a string. -/
def stripLit? (pfx s : Str) : Option Str :=
  if pfx.isPrefixOf s then some (s.drop pfx.length) else none

/-- Read characters up to (excluding) the first occurrence of `stop`;
fails if `stop` does not occur. -/
def readUntil (stop : Char) : Str → Option (Str × Str)
  | [] => none
  | c :: rest =>
    if c = stop then some ([], c :: rest)
    else (readUntil stop rest).map (fun a => (c :: a.1, a.2))

/-- XML unescaping of element text, as an XML parser performs it. -/
def unescapeCdata : Str → Str
  | '&' :: 'a' :: 'm' :: 'p' :: ';' :: rest => '&' :: unescapeCdata rest
  | '&' :: 'l' :: 't' :: ';' :: rest => '<' :: unescapeCdata rest
  | '&' :: 'g' :: 't' :: ';' :: rest => '>' :: unescapeCdata rest
  | c :: rest => c :: unescapeCdata rest
  | [] => []

/-- The character denoted by a two-digit decimal character reference. -/
def charRef (d1 d2 : Char) : Char :=
  Char.ofNat ((d1.toNat - 48) * 10 + (d2.toNat - 48))

/-- XML unescaping of an attribute value, as an XML parser performs it. -/
def unescapeAttrib : Str → Str
  | '&' :: 'a' :: 'm' :: 'p' :: ';' :: rest => '&' :: unescapeAttrib rest
  | '&' :: 'l' :: 't' :: ';' :: rest => '<' :: unescapeAttrib rest
  | '&' :: 'g' :: 't' :: ';' :: rest => '>' :: unescapeAttrib rest
  | '&' :: 'q' :: 'u' :: 'o' :: 't' :: ';' :: rest => '"' :: unescapeAttrib rest
  | '&' :: '#' :: d1 :: d2 :: ';' :: rest => charRef d1 d2 :: unescapeAttrib rest
  | c :: rest => c :: unescapeAttrib rest
  | [] => []

/-- Parsing the Add document back (`_parse` after the nbsp normalization,
followed by the `find` accessors): recover the text of the `string`
element (`none` when the element is self-closed, as an XML tree reports a
missing text) and the `val` attribute of the `state_id` element. -/
def parseAddCommand (doc : Str) : Option (Option Str × Str) :=
  match stripLit? addDocHead doc with
  | none => none
  | some d1 =>
    match
      (if "<string />".toList.isPrefixOf d1 then
        some ((none : Option Str), d1.drop ("<string />".toList).length)
      else
        match stripLit? "<string>".toList d1 with
        | none => none
        | some d2 =>
          match readUntil '<' d2 with
          | none => none
          | some a =>
            match stripLit? "</string>".toList a.2 with
            | none => none
            | some d4 => some (some (unescapeCdata a.1), d4)) with
    | none => none
    | some td =>
      match stripLit? addDocMid td.2 with
      | none => none
      | some d6 =>
        match readUntil '"' d6 with
        | none => none
        | some b =>
          match stripLit? addDocTail b.2 with
          | none => none
          | some d8 => if d8.isEmpty then some (td.1, unescapeAttrib b.1) else none

/-! ### Spec-worded renderer (for the refinement claim C7) -/

/-- Modelled from the spec: the per-goal blocks described in section 4.5,
indices counted from 1, each block a 15-character-truncated
`"<index>/<total> -----------"` marker, a newline, and the conclusion. -/
def blocksSpec (n : Nat) : Nat → List Goal → List Str
  | _, [] => []
  | i, g :: gs =>
    (((Nat.repr i).toList ++ ['/'] ++ (Nat.repr n).toList ++ " -----------".toList).take 15
        ++ ['\n'] ++ g.concl) :: blocksSpec n (i + 1) gs

/-- Modelled from the spec: the goal-state rendering described in section
4.5: zero goals give the literal text; otherwise the header, the focused
goal hypotheses one per line, and the per-goal blocks, with non-empty
sections joined by a blank line and empty sections omitted. -/
def goalsContentSpec (gs : List Goal) : Str :=
  match gs with
  | [] => "No more subgoals".toList
  | g0 :: _ =>
    let n := gs.length
    let header : Str :=
      if n = 1 then "1 subgoal".toList else (Nat.repr n).toList ++ " subgoals".toList
    let sections := [header, List.intercalate ['\n'] g0.hyps,
                     List.intercalate ['\n'] (blocksSpec n 1 gs)]
    List.intercalate "\n\n".toList (sections.filter (fun c => !c.isEmpty))

/-- An environment in which every command is accepted: each command's reply
stream terminates with a good `value` reply, and Add replies carry the new
StateId.  This is the hypothesis "all statements individually accepted". -/
def GoodEnv {σ : Type} (p : ProcModel σ) : Prop :=
  ∀ s c, ∃ r oobs, executeCommand true (p.step s c).2 = some (.ok (r, oobs)) ∧
    r.good = true ∧ ∀ sent t, c = Command.add sent t → r.nexttip.isSome

/-! ### Unfolding lemmas for the evaluation loop -/

theorem evalLoop_nil {σ : Type} (p : ProcModel σ) (st : LoopState σ) :
    evalLoop p [] st = .done st true := by
  unfold evalLoop
  rfl

theorem evalLoop_good_step {σ : Type} (p : ProcModel σ) (sentence : Sentence)
    (rest : List Sentence) (st : LoopState σ) (s1 s2 : σ) (addReply statusReply : ValueReply)
    (aoobs soobs : List OOBReply) (t : StateId)
    (hAdd : execCmd p st.proc (.add sentence st.tip) true = (s1, some (.ok (addReply, aoobs))))
    (hSt : execCmd p s1 .status true = (s2, some (.ok (statusReply, soobs))))
    (hg1 : addReply.good = true) (hg2 : statusReply.good = true)
    (hT : addReply.nexttip = some t) :
    evalLoop p (sentence :: rest) st =
      evalLoop p rest
        ⟨s2, t, st.outputs ++ msgContents soobs, some statusReply,
         st.committed ++ [sentence], st.addsIssued + 1, some t⟩ := by
  conv_lhs => unfold evalLoop
  rw [hAdd]
  simp only [hSt, hg1, hg2, hT, Bool.true_and, if_true]

theorem evalLoop_merge_step {σ : Type} (p : ProcModel σ) (sentence r1 : Sentence)
    (rs : List Sentence) (st : LoopState σ) (s1 s2 s3 : σ) (addReply statusReply : ValueReply)
    (aoobs soobs : List OOBReply) (er : ValueReply × List OOBReply)
    (hAdd : execCmd p st.proc (.add sentence st.tip) true = (s1, some (.ok (addReply, aoobs))))
    (hSt : execCmd p s1 .status true = (s2, some (.ok (statusReply, soobs))))
    (hBad : (addReply.good && statusReply.good) = false)
    (hEdit : execCmd p s2 (.editAt st.tip) false = (s3, some (.ok er))) :
    evalLoop p (sentence :: r1 :: rs) st =
      evalLoop p ((sentence ++ r1) :: rs)
        ⟨s3, st.tip, st.outputs, some statusReply,
         st.committed, st.addsIssued + 1, st.lastAddTip⟩ := by
  conv_lhs => unfold evalLoop
  rw [hAdd]
  simp only [hSt, hBad, hEdit, Bool.false_eq_true, if_false]

theorem evalLoop_fail_last_statusbad {σ : Type} (p : ProcModel σ) (sentence : Sentence)
    (st : LoopState σ) (s1 s2 s3 : σ) (addReply statusReply : ValueReply)
    (aoobs soobs : List OOBReply) (er : ValueReply × List OOBReply)
    (hAdd : execCmd p st.proc (.add sentence st.tip) true = (s1, some (.ok (addReply, aoobs))))
    (hSt : execCmd p s1 .status true = (s2, some (.ok (statusReply, soobs))))
    (hga : addReply.good = true) (hgs : statusReply.good = false)
    (hEdit : execCmd p s2 (.editAt st.tip) false = (s3, some (.ok er))) :
    evalLoop p [sentence] st =
      .done ⟨s3, st.tip, st.outputs ++ [addReply, statusReply].filterMap errorContent?,
             some statusReply, st.committed, st.addsIssued + 1, st.lastAddTip⟩ false := by
  conv_lhs => unfold evalLoop
  rw [hAdd]
  simp only [hSt, hga, hgs, hEdit, Bool.true_and, Bool.false_eq_true, if_false, if_true]

theorem evalLoop_eoi_last {σ : Type} (p : ProcModel σ) (sentence : Sentence)
    (st : LoopState σ) (s1 s2 s3 : σ) (addReply statusReply : ValueReply)
    (aoobs soobs : List OOBReply) (er : ValueReply × List OOBReply) (e : Str)
    (hAdd : execCmd p st.proc (.add sentence st.tip) true = (s1, some (.ok (addReply, aoobs))))
    (hSt : execCmd p s1 .status true = (s2, some (.ok (statusReply, soobs))))
    (hga : addReply.good = false)
    (hEdit : execCmd p s2 (.editAt st.tip) false = (s3, some (.ok er)))
    (hR : addReply.richpp = some e)
    (hEoi : isEndOfInputContent (withErrPfx e) = true) :
    evalLoop p [sentence] st =
      .done ⟨s3, st.tip, st.outputs, some statusReply,
             st.committed, st.addsIssued + 1, st.lastAddTip⟩ true := by
  conv_lhs => unfold evalLoop
  rw [hAdd]
  simp only [hSt, hga, hEdit, hR, hEoi, Bool.false_and, Bool.false_eq_true, if_false, if_true]

theorem evalLoop_fail_last_addbad {σ : Type} (p : ProcModel σ) (sentence : Sentence)
    (st : LoopState σ) (s1 s2 s3 : σ) (addReply statusReply : ValueReply)
    (aoobs soobs : List OOBReply) (er : ValueReply × List OOBReply) (e : Str)
    (hAdd : execCmd p st.proc (.add sentence st.tip) true = (s1, some (.ok (addReply, aoobs))))
    (hSt : execCmd p s1 .status true = (s2, some (.ok (statusReply, soobs))))
    (hga : addReply.good = false)
    (hEdit : execCmd p s2 (.editAt st.tip) false = (s3, some (.ok er)))
    (hR : addReply.richpp = some e)
    (hEoi : isEndOfInputContent (withErrPfx e) = false) :
    evalLoop p [sentence] st =
      .done ⟨s3, st.tip, st.outputs ++ [addReply, statusReply].filterMap errorContent?,
             some statusReply, st.committed, st.addsIssued + 1, st.lastAddTip⟩ false := by
  conv_lhs => unfold evalLoop
  rw [hAdd]
  simp only [hSt, hga, hEdit, hR, hEoi, Bool.false_and, Bool.false_eq_true, if_false, if_true]

/-! ### Queue construction lemmas -/

theorem splitDot_no_dot (s : Str) (h : '.' ∉ s) : splitDot s = [s] := by
  induction s with
  | nil => rfl
  | cons c rest ih =>
    simp only [List.mem_cons, not_or] at h
    simp only [splitDot]
    rw [if_neg (fun e => h.1 e.symm), ih h.2]

theorem buildQueue_ws (code : Str) (h : code.all isWs = true) : buildQueue code = [] := by
  have hnd : '.' ∉ code := by
    intro hm
    have := List.all_eq_true.mp h _ hm
    simp [isWs] at this
  simp only [buildQueue, splitDot_no_dot code hnd]
  simp [h]

theorem splitDot_ne_nil (s : Str) : splitDot s ≠ [] := by
  cases s with
  | nil => simp [splitDot]
  | cons c rest =>
    by_cases h : c = '.'
    · simp [splitDot, h]
    · cases hsp : splitDot rest <;> simp [splitDot, h, hsp]

/-- Reassembling the split: the `'.'`-terminated pieces concatenated with
the leftover give back the original code. -/
theorem splitDot_join (code : Str) :
    ((splitDot code).dropLast.map (fun s => s ++ ['.'])).flatten
      ++ (splitDot code).getLast?.getD [] = code := by
  induction code with
  | nil => rfl
  | cons c rest ih =>
    by_cases hc : c = '.'
    · subst hc
      rcases hsp : splitDot rest with _ | ⟨p, ps⟩
      · exact absurd hsp (splitDot_ne_nil rest)
      · rw [hsp] at ih
        simp only [splitDot, if_pos rfl, if_true, hsp, List.dropLast_cons₂, List.map_cons,
          List.flatten_cons, List.getLast?_cons_cons, List.nil_append, List.cons_append]
        rw [ih]
    · rcases hsp : splitDot rest with _ | ⟨p, ps⟩
      · exact absurd hsp (splitDot_ne_nil rest)
      · rw [hsp] at ih
        simp only [splitDot, if_neg hc, hsp]
        cases ps with
        | nil =>
          simp only [List.dropLast_single, List.map_nil, List.flatten_nil,
            List.getLast?_singleton, Option.getD_some, List.nil_append] at ih ⊢
          rw [ih]
        | cons q qs =>
          simp only [List.dropLast_cons₂, List.map_cons, List.flatten_cons,
            List.getLast?_cons_cons, List.cons_append, List.append_assoc] at ih ⊢
          rw [ih]

/-! ### Claim theorems -/

/-- Claim C2 (code bug evidence): for every input consisting only of
whitespace the statement queue is empty, so the loop body never runs and
line 149 reads the never-assigned local `status_reply`: `eval` raises (an
UnboundLocalError wrapped into a CoqtopError) instead of returning
`(True, [])`. -/
theorem c2_ws_input_raises {σ : Type} (p : ProcModel σ) (proc : σ) (tip : StateId)
    (code : Str) (h : code.all isWs = true) :
    eval p proc tip code = .raised ⟨proc, tip, [], none, [], 0, none⟩ .unboundLocal := by
  simp only [eval, buildQueue_ws code h, evalLoop_nil, if_true]

/-- Witness for C2 at the concrete whitespace-only input " ". -/
theorem c2_ws_input_raises_witness :
    (" ".toList.all isWs = true) ∧
      eval envAllGood () "1".toList " ".toList =
        .raised ⟨(), "1".toList, [], none, [], 0, none⟩ .unboundLocal :=
  ⟨by decide, c2_ws_input_raises envAllGood () "1".toList " ".toList (by decide)⟩

/-- Claim C1: whenever `eval` returns with success `false`, the session tip
at return equals the tip at entry (the failure branch rolls back to
`tip_before`, lines 156-158). -/
theorem c1_failed_eval_restores_tip {σ : Type} (p : ProcModel σ) (proc : σ) (tip : StateId)
    (code : Str) (st : LoopState σ)
    (h : eval p proc tip code = .returned st false) : st.tip = tip := by
  simp only [eval] at h
  repeat' split at h
  all_goals cases h
  all_goals rfl

/-- Claim C3: when a popped statement is not good and the queue still holds
a statement, the loop merges the failed statement with the new front,
pushes the merge back to the front and retries, advancing neither tip nor
outputs; and evaluating "Require Import A.B.\n", split as
["Require Import A.", "B."], recombines into the single accepted statement
"Require Import A.B." instead of reporting an error. -/
theorem c3_merge_and_retry :
    (∀ (σ : Type) (p : ProcModel σ) (s r1 : Sentence) (rs : List Sentence) (st : LoopState σ)
        (s1 s2 s3 : σ) (addR stR : ValueReply) (aoobs soobs : List OOBReply)
        (er : ValueReply × List OOBReply),
        execCmd p st.proc (.add s st.tip) true = (s1, some (.ok (addR, aoobs))) →
        execCmd p s1 .status true = (s2, some (.ok (stR, soobs))) →
        (addR.good && stR.good) = false →
        execCmd p s2 (.editAt st.tip) false = (s3, some (.ok er)) →
        evalLoop p (s :: r1 :: rs) st =
          evalLoop p ((s ++ r1) :: rs)
            ⟨s3, st.tip, st.outputs, some stR, st.committed, st.addsIssued + 1, st.lastAddTip⟩)
    ∧ buildQueue "Require Import A.B.\n".toList = ["Require Import A.".toList, "B.".toList]
    ∧ eval envMerge () "1".toList "Require Import A.B.\n".toList =
        .returned ⟨(), "2".toList, [], some vrPlainGood,
                   ["Require Import A.B.".toList], 2, some "2".toList⟩ true := by
  refine ⟨?_, by decide, ?_⟩
  · intro σ p s r1 rs st s1 s2 s3 addR stR aoobs soobs er hAdd hSt hBad hEdit
    exact evalLoop_merge_step p s r1 rs st s1 s2 s3 addR stR aoobs soobs er hAdd hSt hBad hEdit
  · have h1 : ("Require Import A.".toList == "Require Import A.".toList) = true := by decide
    have h2 : ("Require Import A.B.".toList == "Require Import A.".toList) = false := by decide
    simp [eval, evalLoop, execCmd, executeCommand, envMerge, buildQueue, splitDot,
      vrFail, vrGoodAdd, vrPlainGood, errorContent?, withErrPfx, isEndOfInputContent,
      hasSubstr, msgContents, isWs, h1, h2]

/-- Claim C10: the concatenation of committed statements plus pending queue
is the original input (with a trailing all-whitespace fragment removed when
there is one), and both the merge step and the accept step of the loop
preserve that concatenation. -/
theorem c10_concat_invariant :
    (∀ code : Str, ((splitDot code).getLast?.getD []).all isWs = false →
        (buildQueue code).flatten = code)
    ∧ (∀ code : Str, ((splitDot code).getLast?.getD []).all isWs = true →
        (buildQueue code).flatten ++ (splitDot code).getLast?.getD [] = code)
    ∧ (∀ (σ : Type) (p : ProcModel σ) (s r1 : Sentence) (rs : List Sentence) (st : LoopState σ)
        (s1 s2 s3 : σ) (addR stR : ValueReply) (aoobs soobs : List OOBReply)
        (er : ValueReply × List OOBReply),
        execCmd p st.proc (.add s st.tip) true = (s1, some (.ok (addR, aoobs))) →
        execCmd p s1 .status true = (s2, some (.ok (stR, soobs))) →
        (addR.good && stR.good) = false →
        execCmd p s2 (.editAt st.tip) false = (s3, some (.ok er)) →
        evalLoop p (s :: r1 :: rs) st =
          evalLoop p ((s ++ r1) :: rs)
            ⟨s3, st.tip, st.outputs, some stR, st.committed, st.addsIssued + 1, st.lastAddTip⟩
        ∧ st.committed.flatten ++ ((s ++ r1) :: rs).flatten
            = st.committed.flatten ++ (s :: r1 :: rs).flatten)
    ∧ (∀ (σ : Type) (p : ProcModel σ) (s : Sentence) (rest : List Sentence) (st : LoopState σ)
        (s1 s2 : σ) (addR stR : ValueReply) (aoobs soobs : List OOBReply) (t : StateId),
        execCmd p st.proc (.add s st.tip) true = (s1, some (.ok (addR, aoobs))) →
        execCmd p s1 .status true = (s2, some (.ok (stR, soobs))) →
        addR.good = true → stR.good = true → addR.nexttip = some t →
        evalLoop p (s :: rest) st =
          evalLoop p rest
            ⟨s2, t, st.outputs ++ msgContents soobs, some stR,
             st.committed ++ [s], st.addsIssued + 1, some t⟩
        ∧ (st.committed ++ [s]).flatten ++ rest.flatten
            = st.committed.flatten ++ (s :: rest).flatten) := by
  refine ⟨?_, ?_, ?_, ?_⟩
  · intro code h
    have hj := splitDot_join code
    simp only [buildQueue, h, Bool.false_eq_true, if_false, List.flatten_append,
      List.flatten_cons, List.flatten_nil, List.append_nil]
    exact hj
  · intro code h
    simp only [buildQueue, h, if_true]
    exact splitDot_join code
  · intro σ p s r1 rs st s1 s2 s3 addR stR aoobs soobs er hAdd hSt hBad hEdit
    refine ⟨evalLoop_merge_step p s r1 rs st s1 s2 s3 addR stR aoobs soobs er hAdd hSt hBad hEdit, ?_⟩
    simp [List.append_assoc]
  · intro σ p s rest st s1 s2 addR stR aoobs soobs t hAdd hSt hga hgs hT
    refine ⟨evalLoop_good_step p s rest st s1 s2 addR stR aoobs soobs t hAdd hSt hga hgs hT, ?_⟩
    simp [List.append_assoc]

/-- Witness for C1: a concrete failing run; the returned state's tip is the
entry tip "1". -/
theorem c1_failed_eval_restores_tip_witness :
    (⟨(), "1".toList, ["Error: oops".toList], some vrPlainGood, [], 1, none⟩
        : LoopState Unit).tip = "1".toList :=
  c1_failed_eval_restores_tip envFailPlain () "1".toList "A.".toList
    ⟨(), "1".toList, ["Error: oops".toList], some vrPlainGood, [], 1, none⟩
    (by simp [eval, evalLoop, execCmd, executeCommand, envFailPlain, buildQueue, splitDot,
      vrFail, vrPlainGood, errorContent?, withErrPfx, isEndOfInputContent, hasSubstr,
      msgContents, isWs])

/-- Witness for C3: the merge step at a concrete failing Add. -/
theorem c3_merge_and_retry_witness :
    evalLoop envFailPlain ["A.".toList, "B.".toList] ⟨(), "1".toList, [], none, [], 0, none⟩ =
      evalLoop envFailPlain ["A.B.".toList]
        ⟨(), "1".toList, [], some vrPlainGood, [], 1, none⟩ :=
  c3_merge_and_retry.1 Unit envFailPlain "A.".toList "B.".toList []
    ⟨(), "1".toList, [], none, [], 0, none⟩ () () ()
    (vrFail "oops".toList) vrPlainGood [] [] (vrPlainGood, []) rfl rfl rfl rfl

/-- Witness for C10: the initial concatenation property at "A. B" and the
accept-step preservation at a concrete accepted statement. -/
theorem c10_concat_invariant_witness :
    (buildQueue "A. B".toList).flatten = "A. B".toList
    ∧ (evalLoop envAllGood ["A.".toList] ⟨(), "1".toList, [], none, [], 0, none⟩ =
        evalLoop envAllGood []
          ⟨(), "2".toList, [], some vrPlainGood, ["A.".toList], 1, some "2".toList⟩
      ∧ (([] : List Sentence) ++ ["A.".toList]).flatten ++ ([] : List (List Char)).flatten
          = ([] : List Sentence).flatten ++ ["A.".toList].flatten) :=
  ⟨c10_concat_invariant.1 "A. B".toList (by decide),
   c10_concat_invariant.2.2.2 Unit envAllGood "A.".toList []
     ⟨(), "1".toList, [], none, [], 0, none⟩ () ()
     (vrGoodAdd "2".toList) vrPlainGood [] [] "2".toList rfl rfl rfl rfl rfl⟩

/-- Claim C6: the executor raises exactly when the terminal value reply is
a failure and allow_fail is false; otherwise it returns the terminal reply
together with all out-of-band replies received before it, in order. -/
theorem c6_executor_contract (allowFail : Bool) (oobs : List OOBReply) (r : ValueReply)
    (rest : List TaggedReply) :
    executeCommand allowFail (oobs.map .oob ++ .value r :: rest) =
      if r.good = false ∧ allowFail = false then some (.error .unexpectedReply)
      else some (.ok (r, oobs)) := by
  induction oobs with
  | nil =>
    cases hg : r.good <;> cases allowFail <;> simp [executeCommand, hg]
  | cons o os ih =>
    simp only [List.map_cons, List.cons_append, executeCommand, List.append_eq]
    rw [ih]
    split <;> rfl

/-- Counterexample to C5: the end-of-input signature test is applied to the
Add reply only (line 132); here the Status reply fails with a matching
anomaly text while the Add is accepted, and eval reports failure and
appends the error, contradicting the claim. -/
theorem c5_counterexample :
    isEndOfInputContent (withErrPfx anomalyText) = true
    ∧ eval envStatusAnomaly () "1".toList "A.".toList =
        .returned ⟨(), "1".toList, [withErrPfx anomalyText],
                   some (vrFail anomalyText), [], 1, none⟩ false := by
  refine ⟨by decide, ?_⟩
  simp [eval, evalLoop, execCmd, executeCommand, envStatusAnomaly, buildQueue, splitDot,
    vrFail, vrGoodAdd, vrPlainGood, errorContent?, withErrPfx, isEndOfInputContent,
    hasSubstr, msgContents, isWs, anomalyText]

/-- Claim C5 (amended): if the last remaining statement is not good, the
queue is empty, and the ADD reply is a failure whose error content matches
one of the two reserved end-of-input anomaly signatures, the loop stops
with overall success and the error is not appended to the outputs. -/
theorem c5_amended_eoi_add_only (σ : Type) (p : ProcModel σ) (s : Sentence)
    (st : LoopState σ) (s1 s2 s3 : σ) (addR stR : ValueReply)
    (aoobs soobs : List OOBReply) (er : ValueReply × List OOBReply) (e : Str)
    (hAdd : execCmd p st.proc (.add s st.tip) true = (s1, some (.ok (addR, aoobs))))
    (hSt : execCmd p s1 .status true = (s2, some (.ok (stR, soobs))))
    (hga : addR.good = false)
    (hEdit : execCmd p s2 (.editAt st.tip) false = (s3, some (.ok er)))
    (hR : addR.richpp = some e)
    (hEoi : isEndOfInputContent (withErrPfx e) = true) :
    evalLoop p [s] st =
      .done ⟨s3, st.tip, st.outputs, some stR, st.committed,
             st.addsIssued + 1, st.lastAddTip⟩ true :=
  evalLoop_eoi_last p s st s1 s2 s3 addR stR aoobs soobs er e hAdd hSt hga hEdit hR hEoi

/-- Witness for the amended C5 at a concrete anomalous Add. -/
theorem c5_amended_eoi_add_only_witness :
    evalLoop envAddAnomaly ["A.".toList] ⟨(), "1".toList, [], none, [], 0, none⟩ =
      .done ⟨(), "1".toList, [], some vrPlainGood, [], 1, none⟩ true :=
  c5_amended_eoi_add_only Unit envAddAnomaly "A.".toList
    ⟨(), "1".toList, [], none, [], 0, none⟩ () () ()
    (vrFail anomalyText) vrPlainGood [] [] (vrPlainGood, []) anomalyText
    rfl rfl rfl rfl rfl (by decide)

/-- Counterexample to C8: the out-of-band replies of the Add command are
discarded (line 104): here the Add reply stream carries a notice message,
yet eval returns success with empty outputs. -/
theorem c8_counterexample :
    execCmd envAddOob () (.add "A.".toList "1".toList) true
      = ((), some (.ok (vrGoodAdd "2".toList,
          [⟨some ⟨"notice".toList, "hello".toList⟩⟩])))
    ∧ getMessageContent ⟨"notice".toList, "hello".toList⟩ = "hello".toList
    ∧ eval envAddOob () "1".toList "A.".toList =
        .returned ⟨(), "2".toList, [], some vrPlainGood,
                   ["A.".toList], 1, some "2".toList⟩ true := by
  refine ⟨rfl, by decide, ?_⟩
  simp [eval, evalLoop, execCmd, executeCommand, envAddOob, buildQueue, splitDot,
    vrFail, vrGoodAdd, vrPlainGood, errorContent?, withErrPfx, isEndOfInputContent,
    hasSubstr, msgContents, isWs, getMessageContent, pyCapitalize, Except.map, Option.map]

/-- Claim C8 (amended): when a popped statement is good, the loop advances
the tip to the StateId of the Add reply and appends, in order, the message
contents of the out-of-band replies of the STATUS command only (the Add
command's out-of-band replies are discarded), before continuing with the
rest of the queue. -/
theorem c8_amended_good_step (σ : Type) (p : ProcModel σ) (s : Sentence)
    (rest : List Sentence) (st : LoopState σ) (s1 s2 : σ) (addR stR : ValueReply)
    (aoobs soobs : List OOBReply) (t : StateId)
    (hAdd : execCmd p st.proc (.add s st.tip) true = (s1, some (.ok (addR, aoobs))))
    (hSt : execCmd p s1 .status true = (s2, some (.ok (stR, soobs))))
    (hga : addR.good = true) (hgs : stR.good = true) (hT : addR.nexttip = some t) :
    evalLoop p (s :: rest) st =
      evalLoop p rest
        ⟨s2, t, st.outputs ++ msgContents soobs, some stR,
         st.committed ++ [s], st.addsIssued + 1, some t⟩ :=
  evalLoop_good_step p s rest st s1 s2 addR stR aoobs soobs t hAdd hSt hga hgs hT

/-- Witness for the amended C8 at a concrete Status stream carrying a
notice message. -/
theorem c8_amended_good_step_witness :
    evalLoop envStatusOob ["A.".toList] ⟨(), "1".toList, [], none, [], 0, none⟩ =
      evalLoop envStatusOob []
        ⟨(), "2".toList, ["hello".toList], some vrPlainGood,
         ["A.".toList], 1, some "2".toList⟩ := by
  have h := c8_amended_good_step Unit envStatusOob "A.".toList []
    ⟨(), "1".toList, [], none, [], 0, none⟩ () ()
    (vrGoodAdd "2".toList) vrPlainGood []
    [⟨some ⟨"notice".toList, "hello".toList⟩⟩] "2".toList
    rfl rfl rfl rfl rfl
  simpa [msgContents, getMessageContent, pyCapitalize] using h

/-! ### All-accepted runs (claim C4) -/

theorem executeCommand_false_of_good (l : List TaggedReply) (r : ValueReply)
    (oobs : List OOBReply) (h : executeCommand true l = some (.ok (r, oobs)))
    (hg : r.good = true) : executeCommand false l = some (.ok (r, oobs)) := by
  induction l generalizing oobs with
  | nil => simp [executeCommand] at h
  | cons x rest ih =>
    cases x with
    | value v =>
      simp only [executeCommand, Bool.not_true, Bool.and_false, Bool.false_eq_true,
        if_false, Option.some.injEq, Except.ok.injEq, Prod.mk.injEq] at h
      obtain ⟨rfl, rfl⟩ := h
      simp [executeCommand, hg]
    | oob o =>
      simp only [executeCommand] at h ⊢
      cases he : executeCommand true rest with
      | none => rw [he] at h; simp at h
      | some res =>
        rw [he] at h
        cases res with
        | error c => simp [Except.map] at h
        | ok v =>
          simp only [Option.map_some, Except.map, Option.some.injEq,
            Except.ok.injEq, Prod.mk.injEq] at h
          obtain ⟨rfl, rfl⟩ := h
          rw [ih v.2 (by rw [he])]
          rfl

/-- In an all-accepting environment the loop runs to completion with
success, issuing one Add per queued statement, and (for a non-empty queue)
leaving the tip equal to the StateId of the last accepted Add reply and the
last Status reply assigned. -/
theorem goodEnv_loop {σ : Type} (p : ProcModel σ) (hp : GoodEnv p) :
    ∀ (q : List Sentence) (st : LoopState σ), ∃ st2 : LoopState σ,
      evalLoop p q st = .done st2 true
      ∧ st2.addsIssued = st.addsIssued + q.length
      ∧ (q = [] → st2 = st)
      ∧ (q ≠ [] → st2.lastAddTip = some st2.tip ∧
          ∃ sr, st2.lastStatus = some sr ∧ sr.good = true) := by
  intro q
  induction q with
  | nil =>
    intro st
    exact ⟨st, evalLoop_nil p st, by simp, fun _ => rfl, by simp⟩
  | cons s rest ih =>
    intro st
    obtain ⟨rA, oobsA, hA, hgA, hnt⟩ := hp st.proc (.add s st.tip)
    obtain ⟨t, ht⟩ := Option.isSome_iff_exists.mp (hnt s st.tip rfl)
    obtain ⟨rS, oobsS, hS, hgS, -⟩ := hp (p.step st.proc (.add s st.tip)).1 .status
    have hAdd : execCmd p st.proc (.add s st.tip) true =
        ((p.step st.proc (.add s st.tip)).1, some (.ok (rA, oobsA))) := by
      simp [execCmd, hA]
    have hSt : execCmd p (p.step st.proc (.add s st.tip)).1 .status true =
        ((p.step (p.step st.proc (.add s st.tip)).1 .status).1, some (.ok (rS, oobsS))) := by
      simp [execCmd, hS]
    rw [evalLoop_good_step p s rest st _ _ rA rS oobsA oobsS t hAdd hSt hgA hgS ht]
    obtain ⟨st2, h1, h2, h3, h4⟩ := ih _
    refine ⟨st2, h1, ?_, by simp, fun _ => ?_⟩
    · rw [h2]; simp; omega
    · cases rest with
      | nil =>
        rw [h3 rfl]
        exact ⟨rfl, rS, rfl, hgS⟩
      | cons r rs => exact h4 (by simp)

/-- After a successful loop, `eval` finishes with the Status inspection and
the Goal command, leaving every field of the loop state except the process
handle and the outputs unchanged. -/
theorem eval_done_true {σ : Type} (p : ProcModel σ) (proc : σ) (tip : StateId) (code : Str)
    (st2 : LoopState σ) (sr rG : ValueReply) (oobsG : List OOBReply) (s1 : σ)
    (hLoop : evalLoop p (buildQueue code) ⟨proc, tip, [], none, [], 0, none⟩ = .done st2 true)
    (hls : st2.lastStatus = some sr)
    (hGoal : execCmd p st2.proc .goal false = (s1, some (.ok (rG, oobsG)))) :
    ∃ outs, eval p proc tip code = .returned { st2 with proc := s1, outputs := outs } true := by
  rcases hpn : sr.provingName with _ | nm <;> rcases hgl : rG.goals with _ | gs
  · exact ⟨st2.outputs, by simp [eval, hLoop, hls, hGoal, hpn, hgl]⟩
  · exact ⟨st2.outputs ++ [getGoalsContent gs], by simp [eval, hLoop, hls, hGoal, hpn, hgl]⟩
  · exact ⟨st2.outputs ++ [provingLine nm], by simp [eval, hLoop, hls, hGoal, hpn, hgl]⟩
  · exact ⟨st2.outputs ++ [provingLine nm] ++ [getGoalsContent gs],
      by simp [eval, hLoop, hls, hGoal, hpn, hgl, List.append_assoc]⟩

theorem splitDot_length (code : Str) : (splitDot code).length = code.count '.' + 1 := by
  induction code with
  | nil => simp [splitDot]
  | cons c rest ih =>
    by_cases hc : c = '.'
    · subst hc
      simp [splitDot, List.count_cons, ih]
    · rcases hsp : splitDot rest with _ | ⟨p, ps⟩
      · exact absurd hsp (splitDot_ne_nil rest)
      · rw [hsp] at ih
        simp only [splitDot, if_neg hc, hsp, List.length_cons] at ih ⊢
        rw [ih, List.count_cons]
        have hbe : ('.' == c) = false := beq_eq_false_iff_ne.mpr (Ne.symm hc)
        simp [hbe, hc]

/-- The all-accepting environment satisfies `GoodEnv`. -/
theorem goodEnv_envAllGood : GoodEnv envAllGood := by
  intro s c
  cases c with
  | add sent t => exact ⟨vrGoodAdd "2".toList, [], rfl, rfl, fun _ _ _ => rfl⟩
  | status => exact ⟨vrPlainGood, [], rfl, rfl, fun _ _ h => by cases h⟩
  | goal => exact ⟨vrPlainGood, [], rfl, rfl, fun _ _ h => by cases h⟩
  | editAt sid => exact ⟨vrPlainGood, [], rfl, rfl, fun _ _ h => by cases h⟩

/-- Counterexample to C4: in an all-accepting environment, the cell "A. B"
carries a non-whitespace unterminated leftover " B", which is also
submitted by an Add; eval succeeds having issued 2 Add commands while the
cell has exactly one `.`-terminated statement. -/
theorem c4_counterexample :
    eval envAllGood () "1".toList "A. B".toList =
      .returned ⟨(), "2".toList, [], some vrPlainGood,
                 ["A.".toList, " B".toList], 2, some "2".toList⟩ true
    ∧ List.count '.' "A. B".toList = 1 ∧ (2 : Nat) ≠ 1 := by
  refine ⟨?_, by decide, by decide⟩
  simp [eval, evalLoop, execCmd, executeCommand, envAllGood, buildQueue, splitDot,
    vrGoodAdd, vrPlainGood, errorContent?, msgContents, isWs]

/-- Claim C4 (amended): in a run whose statements are all individually
accepted, eval succeeds, the tip after eval is the StateId carried by the
last accepted Add reply, and the number of Add commands issued equals the
number of queued statements — which is the number of `.`-terminated
statements (the number of dots) whenever the cell has no non-whitespace
unterminated leftover. -/
theorem c4_amended_tip_and_adds (σ : Type) (p : ProcModel σ) (proc : σ) (tip : StateId)
    (code : Str) (hp : GoodEnv p) (hne : buildQueue code ≠ []) :
    ∃ stR : LoopState σ, eval p proc tip code = .returned stR true
      ∧ stR.lastAddTip = some stR.tip
      ∧ stR.addsIssued = (buildQueue code).length
      ∧ (((splitDot code).getLast?.getD []).all isWs = true →
          stR.addsIssued = code.count '.') := by
  obtain ⟨st2, hLoop, hAdds, -, hCons⟩ :=
    goodEnv_loop p hp (buildQueue code) ⟨proc, tip, [], none, [], 0, none⟩
  obtain ⟨hlat, sr, hls, hsrg⟩ := hCons hne
  obtain ⟨rG, oobsG, hG, hgG, -⟩ := hp st2.proc .goal
  have hGoal : execCmd p st2.proc .goal false =
      ((p.step st2.proc .goal).1, some (.ok (rG, oobsG))) := by
    simp [execCmd, executeCommand_false_of_good _ _ _ hG hgG]
  obtain ⟨outs, hEval⟩ := eval_done_true p proc tip code st2 sr rG oobsG _ hLoop hls hGoal
  refine ⟨_, hEval, by simpa using hlat, by simpa using hAdds, fun hws => ?_⟩
  have hlen : (buildQueue code).length = code.count '.' := by
    simp only [buildQueue, hws, if_true, List.length_map, List.length_dropLast,
      splitDot_length]
    omega
  simp only [← hlen]
  simpa using hAdds

/-- Witness for the amended C4 at the single-statement cell "A.". -/
theorem c4_amended_tip_and_adds_witness :
    ∃ stR : LoopState Unit, eval envAllGood () "1".toList "A.".toList = .returned stR true
      ∧ stR.lastAddTip = some stR.tip
      ∧ stR.addsIssued = (buildQueue "A.".toList).length
      ∧ (((splitDot "A.".toList).getLast?.getD []).all isWs = true →
          stR.addsIssued = List.count '.' "A.".toList) :=
  c4_amended_tip_and_adds Unit envAllGood () "1".toList "A.".toList
    goodEnv_envAllGood (by decide)

/-! ### Renderer lemmas (claim C7) -/

theorem toDigitsCore_length_ge (b : Nat) :
    ∀ (f n : Nat) (ds : List Char), 1 ≤ f →
      ds.length + 1 ≤ (Nat.toDigitsCore b f n ds).length := by
  intro f
  induction f with
  | zero => intro n ds h; omega
  | succ f ih =>
    intro n ds h
    simp only [Nat.toDigitsCore]
    split
    · simp
    · cases f with
      | zero =>
        simp [Nat.toDigitsCore]
      | succ f2 =>
        have := ih (n / b) ((n % b).digitChar :: ds) (by omega)
        simp only [List.length_cons] at this
        omega

theorem repr_length_ge_one (n : Nat) : 1 ≤ (Nat.repr n).toList.length := by
  have h := toDigitsCore_length_ge 10 (n + 1) n [] (by omega)
  simpa [Nat.repr, Nat.toDigits] using h

theorem markerStr_length (i n : Nat) : (markerStr i n).length = 15 := by
  have hi := repr_length_ge_one i
  have hn := repr_length_ge_one n
  simp only [markerStr, List.length_take, List.length_append, List.length_cons,
    List.length_nil]
  have : (" -----------".toList).length = 12 := by decide
  omega

theorem blocksSpec_enumFrom (n : Nat) (gs : List Goal) :
    ∀ k : Nat,
      (List.enumFrom k gs).map (fun d => markerStr (d.1 + 1) n ++ ['\n'] ++ d.2.concl)
        = blocksSpec n (k + 1) gs := by
  induction gs with
  | nil => intro k; rfl
  | cons g rest ih =>
    intro k
    simp only [List.enumFrom, List.map_cons, blocksSpec, markerStr]
    exact congrArg _ (ih (k + 1))

/-- Claim C7: the goal-state renderer agrees with the rendering described in
the spec — the zero-goal literal, the subgoal-count header, the focused
goal's hypotheses one per line, the per-goal marker blocks, blank-line
joining with empty sections omitted — and every marker is exactly 15
characters wide. -/
theorem c7_goal_rendering :
    (∀ gs : List Goal, getGoalsContent gs = goalsContentSpec gs)
    ∧ getGoalsContent [] = "No more subgoals".toList
    ∧ (∀ i n : Nat, (markerStr i n).length = 15) := by
  refine ⟨?_, rfl, markerStr_length⟩
  intro gs
  cases gs with
  | nil => rfl
  | cons g rest =>
    simp only [getGoalsContent, goalsContentSpec]
    have h := blocksSpec_enumFrom ((g :: rest).length) (g :: rest) 0
    simp only [List.enum] at *
    rw [h]

/-! ### XML codec lemmas (claim C9) -/

theorem replaceNbsp_cons_ne (c : Char) (rest : Str) (hc : c ≠ '&') :
    replaceNbsp (c :: rest) = c :: replaceNbsp rest := by
  rw [replaceNbsp.eq_def]
  split
  · rename_i h
    injection h with h1 h2
    exact absurd h1 hc
  · rename_i c1 r1 h
    injection h with h1 h2
    rw [h1, h2]
  · rename_i h
    cases h

theorem replaceNbsp_amp_cons (c : Char) (rest : Str) (hc : c ≠ 'n') :
    replaceNbsp ('&' :: c :: rest) = '&' :: replaceNbsp (c :: rest) := by
  rw [replaceNbsp.eq_def]
  split
  · rename_i h
    injection h with h1 h2
    injection h2 with h3 h4
    exact absurd h3 hc
  · rename_i c1 r1 h
    injection h with h1 h2
    rw [h1, h2]
  · rename_i h
    cases h

theorem replaceNbsp_append_noamp (a b : Str) (h : '&' ∉ a) :
    replaceNbsp (a ++ b) = a ++ replaceNbsp b := by
  induction a with
  | nil => simp
  | cons c a2 ih =>
    simp only [List.mem_cons, not_or] at h
    rw [List.cons_append, replaceNbsp_cons_ne c _ (fun e => h.1 e.symm), ih h.2]
    rfl

theorem replaceNbsp_nil : replaceNbsp [] = [] := rfl

theorem replaceNbsp_fix (a : Str) (h : '&' ∉ a) : replaceNbsp a = a := by
  have := replaceNbsp_append_noamp a [] h
  simpa [replaceNbsp_nil] using this

theorem replaceNbsp_entity (c : Char) (rest b : Str) (hc : c ≠ 'n') (hm : '&' ∉ c :: rest) :
    replaceNbsp (('&' :: c :: rest) ++ b) = ('&' :: c :: rest) ++ replaceNbsp b := by
  rw [List.cons_append, List.cons_append, replaceNbsp_amp_cons c _ hc,
    ← List.cons_append, replaceNbsp_append_noamp _ b hm]
  rfl

theorem escapeCdata_cons (c : Char) (cs : Str) :
    escapeCdata (c :: cs) = escCdataChar c ++ escapeCdata cs := by
  simp [escapeCdata]

theorem escapeAttrib_cons (c : Char) (cs : Str) :
    escapeAttrib (c :: cs) = escAttrChar c ++ escapeAttrib cs := by
  simp [escapeAttrib]

theorem replaceNbsp_escapeCdata (s b : Str) :
    replaceNbsp (escapeCdata s ++ b) = escapeCdata s ++ replaceNbsp b := by
  induction s with
  | nil => simp [escapeCdata]
  | cons c cs ih =>
    rw [escapeCdata_cons, List.append_assoc]
    have key : replaceNbsp (escCdataChar c ++ (escapeCdata cs ++ b)) =
        escCdataChar c ++ replaceNbsp (escapeCdata cs ++ b) := by
      unfold escCdataChar
      repeat' split
      · exact replaceNbsp_entity 'a' "mp;".toList _ (by decide) (by decide)
      · exact replaceNbsp_entity 'l' "t;".toList _ (by decide) (by decide)
      · exact replaceNbsp_entity 'g' "t;".toList _ (by decide) (by decide)
      · rename_i h1 h2 h3
        exact replaceNbsp_append_noamp [c] _
          (by simp only [List.mem_singleton]; exact fun e => h1 e.symm)
    rw [key, ih, List.append_assoc]

theorem replaceNbsp_escapeAttrib (s b : Str) :
    replaceNbsp (escapeAttrib s ++ b) = escapeAttrib s ++ replaceNbsp b := by
  induction s with
  | nil => simp [escapeAttrib]
  | cons c cs ih =>
    rw [escapeAttrib_cons, List.append_assoc]
    have key : replaceNbsp (escAttrChar c ++ (escapeAttrib cs ++ b)) =
        escAttrChar c ++ replaceNbsp (escapeAttrib cs ++ b) := by
      unfold escAttrChar
      repeat' split
      · exact replaceNbsp_entity 'a' "mp;".toList _ (by decide) (by decide)
      · exact replaceNbsp_entity 'l' "t;".toList _ (by decide) (by decide)
      · exact replaceNbsp_entity 'g' "t;".toList _ (by decide) (by decide)
      · exact replaceNbsp_entity 'q' "uot;".toList _ (by decide) (by decide)
      · exact replaceNbsp_entity '#' "13;".toList _ (by decide) (by decide)
      · exact replaceNbsp_entity '#' "10;".toList _ (by decide) (by decide)
      · exact replaceNbsp_entity '#' "09;".toList _ (by decide) (by decide)
      · rename_i h1 h2 h3 h4 h5 h6 h7
        exact replaceNbsp_append_noamp [c] _
          (by simp only [List.mem_singleton]; exact fun e => h1 e.symm)
    rw [key, ih, List.append_assoc]

theorem unescapeCdata_amp (rest : Str) :
    unescapeCdata ("&amp;".toList ++ rest) = '&' :: unescapeCdata rest := rfl

theorem unescapeCdata_lt (rest : Str) :
    unescapeCdata ("&lt;".toList ++ rest) = '<' :: unescapeCdata rest := rfl

theorem unescapeCdata_gt (rest : Str) :
    unescapeCdata ("&gt;".toList ++ rest) = '>' :: unescapeCdata rest := rfl

theorem unescapeCdata_cons_ne (c : Char) (rest : Str) (hc : c ≠ '&') :
    unescapeCdata (c :: rest) = c :: unescapeCdata rest := by
  rw [unescapeCdata.eq_def]
  split
  · rename_i h; injection h with h1 h2; exact absurd h1 hc
  · rename_i h; injection h with h1 h2; exact absurd h1 hc
  · rename_i h; injection h with h1 h2; exact absurd h1 hc
  · rename_i c1 r1 h
    injection h with h1 h2
    rw [h1, h2]
  · rename_i h; cases h

theorem unescapeCdata_escape (s : Str) : unescapeCdata (escapeCdata s) = s := by
  induction s with
  | nil => rfl
  | cons c cs ih =>
    rw [escapeCdata_cons]
    unfold escCdataChar
    repeat' split
    · rename_i h; rw [unescapeCdata_amp, ih, h]
    · rename_i h; rw [unescapeCdata_lt, ih, h]
    · rename_i h; rw [unescapeCdata_gt, ih, h]
    · rename_i h1 h2 h3
      rw [List.singleton_append, unescapeCdata_cons_ne c _ (fun e => h1 e), ih]

theorem unescapeAttrib_amp (rest : Str) :
    unescapeAttrib ("&amp;".toList ++ rest) = '&' :: unescapeAttrib rest := rfl

theorem unescapeAttrib_lt (rest : Str) :
    unescapeAttrib ("&lt;".toList ++ rest) = '<' :: unescapeAttrib rest := rfl

theorem unescapeAttrib_gt (rest : Str) :
    unescapeAttrib ("&gt;".toList ++ rest) = '>' :: unescapeAttrib rest := rfl

theorem unescapeAttrib_quot (rest : Str) :
    unescapeAttrib ("&quot;".toList ++ rest) = '"' :: unescapeAttrib rest := rfl

theorem unescapeAttrib_cr (rest : Str) :
    unescapeAttrib ("&#13;".toList ++ rest) = '\r' :: unescapeAttrib rest := rfl

theorem unescapeAttrib_lf (rest : Str) :
    unescapeAttrib ("&#10;".toList ++ rest) = '\n' :: unescapeAttrib rest := rfl

theorem unescapeAttrib_tab (rest : Str) :
    unescapeAttrib ("&#09;".toList ++ rest) = '\t' :: unescapeAttrib rest := rfl

theorem unescapeAttrib_cons_ne (c : Char) (rest : Str) (hc : c ≠ '&') :
    unescapeAttrib (c :: rest) = c :: unescapeAttrib rest := by
  rw [unescapeAttrib.eq_def]
  split
  · rename_i h; injection h with h1 h2; exact absurd h1 hc
  · rename_i h; injection h with h1 h2; exact absurd h1 hc
  · rename_i h; injection h with h1 h2; exact absurd h1 hc
  · rename_i h; injection h with h1 h2; exact absurd h1 hc
  · rename_i h; injection h with h1 h2; exact absurd h1 hc
  · rename_i c1 r1 h
    injection h with h1 h2
    rw [h1, h2]
  · rename_i h; cases h

theorem unescapeAttrib_escape (s : Str) : unescapeAttrib (escapeAttrib s) = s := by
  induction s with
  | nil => rfl
  | cons c cs ih =>
    rw [escapeAttrib_cons]
    unfold escAttrChar
    repeat' split
    · rename_i h; rw [unescapeAttrib_amp, ih, h]
    · rename_i h; rw [unescapeAttrib_lt, ih, h]
    · rename_i h; rw [unescapeAttrib_gt, ih, h]
    · rename_i h; rw [unescapeAttrib_quot, ih, h]
    · rename_i h; rw [unescapeAttrib_cr, ih, h]
    · rename_i h; rw [unescapeAttrib_lf, ih, h]
    · rename_i h; rw [unescapeAttrib_tab, ih, h]
    · rename_i h1 h2 h3 h4 h5 h6 h7
      rw [List.singleton_append, unescapeAttrib_cons_ne c _ (fun e => h1 e), ih]

theorem escCdataChar_no_lt (c : Char) : '<' ∉ escCdataChar c := by
  unfold escCdataChar
  repeat' split
  · decide
  · decide
  · decide
  · rename_i h1 h2 h3
    simp only [List.mem_singleton]
    exact fun e => h2 e.symm

theorem escapeCdata_no_lt (s : Str) : '<' ∉ escapeCdata s := by
  induction s with
  | nil => simp [escapeCdata]
  | cons c cs ih =>
    rw [escapeCdata_cons]
    simp only [List.mem_append, not_or]
    exact ⟨escCdataChar_no_lt c, ih⟩

theorem escAttrChar_no_quot (c : Char) : '"' ∉ escAttrChar c := by
  unfold escAttrChar
  repeat' split
  · decide
  · decide
  · decide
  · decide
  · decide
  · decide
  · decide
  · rename_i h1 h2 h3 h4 h5 h6 h7
    simp only [List.mem_singleton]
    exact fun e => h4 e.symm

theorem escapeAttrib_no_quot (s : Str) : '"' ∉ escapeAttrib s := by
  induction s with
  | nil => simp [escapeAttrib]
  | cons c cs ih =>
    rw [escapeAttrib_cons]
    simp only [List.mem_append, not_or]
    exact ⟨escAttrChar_no_quot c, ih⟩

theorem isPrefixOf_append_self (p r : Str) : p.isPrefixOf (p ++ r) = true := by
  induction p with
  | nil => simp [List.isPrefixOf]
  | cons c cs ih => simp [List.isPrefixOf, ih]

theorem stripLit_self (p r : Str) : stripLit? p (p ++ r) = some r := by
  simp [stripLit?, isPrefixOf_append_self, List.drop_left]

theorem readUntil_exact (stop : Char) (a b2 : Str) (ha : ∀ c ∈ a, c ≠ stop) :
    readUntil stop (a ++ stop :: b2) = some (a, stop :: b2) := by
  induction a with
  | nil => simp [readUntil]
  | cons c a2 ih =>
    have hc : c ≠ stop := ha c (by simp)
    simp only [List.cons_append, readUntil, if_neg hc, List.append_eq]
    rw [ih (fun x hx => ha x (by simp [hx]))]
    rfl

theorem replaceNbsp_buildAdd (s tip : Str) :
    replaceNbsp (buildAddCommand s tip) = buildAddCommand s tip := by
  have hHead : '&' ∉ addDocHead := by decide
  have hMid : '&' ∉ addDocMid := by decide
  have hTail : '&' ∉ addDocTail := by decide
  have hSE : '&' ∉ "<string />".toList := by decide
  have hSO : '&' ∉ "<string>".toList := by decide
  have hSC : '&' ∉ "</string>".toList := by decide
  unfold buildAddCommand stringElem
  by_cases hs : s.isEmpty = true
  · rw [if_pos hs]
    simp only [List.append_assoc]
    rw [replaceNbsp_append_noamp _ _ hHead, replaceNbsp_append_noamp _ _ hSE,
      replaceNbsp_append_noamp _ _ hMid, replaceNbsp_escapeAttrib,
      replaceNbsp_fix _ hTail]
  · rw [if_neg hs]
    simp only [List.append_assoc]
    rw [replaceNbsp_append_noamp _ _ hHead, replaceNbsp_append_noamp _ _ hSO,
      replaceNbsp_escapeCdata, replaceNbsp_append_noamp _ _ hSC,
      replaceNbsp_append_noamp _ _ hMid, replaceNbsp_escapeAttrib,
      replaceNbsp_fix _ hTail]

theorem strSelfClosed_not_prefix (X : Str) :
    ("<string />".toList.isPrefixOf ("<string>".toList ++ X)) = false := rfl

theorem stripLit_all (p : Str) : stripLit? p p = some [] := by
  have := stripLit_self p []
  simpa using this

theorem readUntil_split (stop : Char) (a b : Str) (ha : ∀ c ∈ a, c ≠ stop)
    (hb : ∃ b2, b = stop :: b2) : readUntil stop (a ++ b) = some (a, b) := by
  obtain ⟨b2, rfl⟩ := hb
  exact readUntil_exact stop a b2 ha

/-- Counterexample to C9: for the empty statement text the serializer emits
a self-closed `string` element, and parsing yields an absent text (Python
None) rather than the empty string: the round trip is not exact at "". -/
theorem c9_counterexample :
    parseAddCommand (replaceNbsp (buildAddCommand [] "1".toList)) = some (none, "1".toList)
    ∧ some ((none : Option Str), "1".toList) ≠ some (some ([] : Str), "1".toList) :=
  ⟨by decide, by decide⟩

/-- Claim C9 (amended): for every non-empty statement text (XML special
characters included) and every tip, the Add envelope built by
`_build_add_command` carries the statement as escaped element content, and
parsing the built envelope back (nbsp normalization included) recovers
exactly the original statement text and the original tip. -/
theorem c9_amended_roundtrip (s tip : Str) (hs : s ≠ []) :
    parseAddCommand (replaceNbsp (buildAddCommand s tip)) = some (some s, tip) := by
  rw [replaceNbsp_buildAdd]
  have hsE : s.isEmpty = false := by
    cases s
    · exact absurd rfl hs
    · rfl
  have hNoLt : ∀ c ∈ escapeCdata s, c ≠ '<' := fun c hc e => escapeCdata_no_lt s (e ▸ hc)
  have hNoQ : ∀ c ∈ escapeAttrib tip, c ≠ '"' := fun c hc e => escapeAttrib_no_quot tip (e ▸ hc)
  have e1 : readUntil '<'
      (escapeCdata s ++ ("</string>".toList ++ (addDocMid ++ (escapeAttrib tip ++ addDocTail))))
      = some (escapeCdata s,
          "</string>".toList ++ (addDocMid ++ (escapeAttrib tip ++ addDocTail))) :=
    readUntil_split '<' _ _ hNoLt ⟨_, rfl⟩
  have e2 : readUntil '"' (escapeAttrib tip ++ addDocTail) =
      some (escapeAttrib tip, addDocTail) :=
    readUntil_split '"' _ _ hNoQ ⟨_, rfl⟩
  unfold buildAddCommand stringElem parseAddCommand
  rw [if_neg (by simp [hsE])]
  simp only [List.append_assoc]
  simp only [stripLit_self, strSelfClosed_not_prefix, Bool.false_eq_true, if_false,
    e1, e2, stripLit_all, unescapeCdata_escape, unescapeAttrib_escape,
    List.isEmpty_nil, if_true]

/-- Witness for the amended C9 at a statement containing XML special
characters. -/
theorem c9_amended_roundtrip_witness :
    parseAddCommand (replaceNbsp (buildAddCommand "a<&>b".toList "1".toList)) =
      some (some "a<&>b".toList, "1".toList) :=
  c9_amended_roundtrip "a<&>b".toList "1".toList (by decide)

end Coqtop
